import Mathlib

/-!
Shallow embedding of the load-cell acquisition program (`src/tough.py`).

The program polls a load cell over a serial link.  The parts the claims
are about:

* `read_pressure` (tough.py lines 76-99): sends the fixed query, reads up
  to 7 bytes, fails when fewer than 5 bytes arrive, otherwise decodes the
  big-endian 16-bit value at offsets 3-4 and divides by 100.  Each failed
  attempt logs one error and sleeps one backoff interval; after `retries`
  failed attempts it returns `None`.
* `start_data_collection` / `collect_data` / `stop_data_collection` /
  `manual_zero` (lines 133-191): a sampling loop over global state
  `zero_offset`, `start_time`, `pressure_data`, `time_data` and a
  `stop_event`.

Machine bytes are modelled as `Nat` (each byte `< 256`; the decode
arithmetic `(b3 <<< 8) ||| b4` never overflows 16 bits so no reduction is
needed).  The Python floats divided by 100 are modelled as `ℚ`; timestamps
(`datetime.now()`) are modelled as `ℚ` inputs supplied to each loop
iteration.  I/O (serial transport) is modelled as the list of outcomes of
the successive attempts: `none` when the attempt raises (write/read
failure), `some buf` when `buf` is the byte buffer the serial read
returned (possibly shorter than 5 bytes, which the code turns into a
raised `ValueError`).
-/

namespace LoadCell

/-- Decode failure of a response buffer: fewer than 5 bytes received
(tough.py line 84-85 raises `ValueError("Returned data length insufficient
for parsing")`). -/
inductive DecodeError where
  | ShortFrame
deriving DecidableEq

/-- The response-frame parsing inlined in `read_pressure` (tough.py lines
83-93): if fewer than 5 bytes were read, fail; otherwise combine byte 3
and byte 4 as `(raw_data[3] << 8) | raw_data[4]`.  Bytes 0-2 and anything
beyond offset 4 are never inspected. -/
def decode_response (buf : List Nat) : Except DecodeError Nat :=
  if buf.length < 5 then .error .ShortFrame
  else .ok (((buf.getD 3 0) <<< 8) ||| buf.getD 4 0)

/-- One transport attempt as the sampling code observes it: `none` when
the serial write/read raises, `some buf` when the read returned the
byte buffer `buf`. -/
abbrev Attempt := Option (List Nat)

/-- The raw value an attempt yields, if any: the attempt must not raise
and its buffer must decode. -/
def attemptValue (a : Attempt) : Option Nat :=
  match a with
  | none => none
  | some buf =>
    match decode_response buf with
    | .ok v => some v
    | .error _ => none

/-- Observable outcome of one `read_pressure` call: the returned value
(`none` models Python's `None`), the number of `logging.error` calls made
from the retry loop, and the number of `time.sleep(1)` backoff calls. -/
structure ReadTrace where
  result : Option ℚ
  failures : Nat
  sleeps : Nat
deriving DecidableEq

/-- `read_pressure` (tough.py lines 76-99) over the list of attempt
outcomes the transport produces (the list length plays the role of
`retries`).  On the first attempt whose buffer decodes, it returns the
value divided by 100; on a failed attempt it logs one failure, sleeps one
backoff interval (the `time.sleep(1)` in the `except` block runs on every
failure, including the last), and retries; when attempts are exhausted it
returns `none`. -/
def read_pressure : List Attempt → ReadTrace
  | [] => { result := none, failures := 0, sleeps := 0 }
  | a :: rest =>
    match attemptValue a with
    | some v => { result := some ((v : ℚ) / 100), failures := 0, sleeps := 0 }
    | none =>
      let t := read_pressure rest
      { result := t.result, failures := t.failures + 1, sleeps := t.sleeps + 1 }

/-- The sampling loop body raises `UnboundLocalError` when it reaches the
`else` branch with the thread-local `start_time` never assigned (only
reachable when `manual_zero` sets `zero_offset` before the loop's first
successful reading; `collect_data` declares `global zero_offset` but not
`start_time`, so line 151 assigns a local). -/
inductive StepError where
  | UnboundStartTime
deriving DecidableEq

/-- The module-level mutable state of tough.py that the claims are about:
whether the collection loop is active (`stop_event` not set), the
`zero_offset` global, the `start_time` recorded at zeroing, and the two
parallel data lists `pressure_data` and `time_data`. -/
structure SysState where
  running : Bool
  zero_offset : Option ℚ
  start_time : Option ℚ
  pressure_data : List ℚ
  time_data : List ℚ
deriving DecidableEq

/-- The DataStore as a sequence of SampleRecords: the i-th record is the
pair `(time_data[i], pressure_data[i])`. -/
def records (s : SysState) : List (ℚ × ℚ) :=
  s.time_data.zip s.pressure_data

/-- One iteration of `collect_data`'s loop body (tough.py lines 145-161),
given the outcome of its `read_pressure()` call and the `datetime.now()`
timestamp of the iteration.  A failed read changes nothing (only prints).
A successful read either establishes the zero offset and start time
(first branch, no record appended) or appends
`pressure_value - zero_offset` to `pressure_data` and the elapsed time to
`time_data`. -/
def collect_step (s : SysState) (reading : Option ℚ) (now : ℚ) :
    Except StepError SysState :=
  match reading with
  | none => .ok s
  | some p =>
    match s.zero_offset with
    | none => .ok { s with zero_offset := some p, start_time := some now }
    | some z =>
      match s.start_time with
      | none => .error .UnboundStartTime
      | some t0 =>
        .ok { s with
              pressure_data := s.pressure_data ++ [p - z],
              time_data := s.time_data ++ [now - t0] }

/-- A run of the sampling loop: fold `collect_step` over the sequence of
(read outcome, timestamp) pairs of the successive iterations. -/
def collect_run : SysState → List (Option ℚ × ℚ) → Except StepError SysState
  | s, [] => .ok s
  | s, e :: rest =>
    match collect_step s e.1 e.2 with
    | .ok s1 => collect_run s1 rest
    | .error err => .error err

/-- `start_data_collection` (tough.py lines 133-141): unconditionally
resets `zero_offset`, `start_time`, `pressure_data`, `time_data`, clears
the stop event and starts the collection thread.  It performs no check of
the current state. -/
def start_data_collection (_s : SysState) : SysState :=
  { running := true, zero_offset := none, start_time := none,
    pressure_data := [], time_data := [] }

/-- `stop_data_collection` (tough.py lines 188-191): unconditionally sets
the stop event; it reads `pressure_data`/`time_data` to export them but
never mutates them, and performs no check of the current state. -/
def stop_data_collection (s : SysState) : SysState :=
  { s with running := false }

/-- The lifecycle failure reasons the specification names.  The source
never produces any of them: `startCmd`/`stopCmd` below always return
`.ok`. -/
inductive CmdError where
  | AlreadyRunning
  | NotRunning
  | ZeroReadFailed
deriving DecidableEq

/-- The start command as the GUI button invokes it.  The observation
domain `Except CmdError` can express the `AlreadyRunning` failure the
specification describes; the source function succeeds unconditionally. -/
def startCmd (s : SysState) : Except CmdError SysState :=
  .ok (start_data_collection s)

/-- The stop command as the GUI button invokes it.  The observation
domain can express the `NotRunning` failure the specification describes;
the source function succeeds unconditionally. -/
def stopCmd (s : SysState) : Except CmdError SysState :=
  .ok (stop_data_collection s)

/-- `manual_zero` (tough.py lines 168-176): perform a fresh
`read_pressure()` under the standard retry policy; if it returns a value,
overwrite `zero_offset` with it; otherwise only print a failure message
and leave all state unchanged. -/
def manual_zero (s : SysState) (attempts : List Attempt) : SysState :=
  match (read_pressure attempts).result with
  | some p => { s with zero_offset := some p }
  | none => s

/-- Invariant of the sampling-loop state relative to a lower bound `t`
on all future iteration timestamps: the zero offset and the loop-local
start time are set together, no record exists before zeroing, and once
zeroing happened at `t0 ≤ t` every recorded elapsed time lies in
`[0, t - t0]`, in non-decreasing order. -/
def Inv (s : SysState) (t : ℚ) : Prop :=
  (s.zero_offset.isSome ↔ s.start_time.isSome) ∧
  (s.start_time = none → s.time_data = []) ∧
  ∀ t0, s.start_time = some t0 →
    t0 ≤ t ∧ List.Sorted (· ≤ ·) s.time_data ∧
    ∀ x ∈ s.time_data, 0 ≤ x ∧ x ≤ t - t0

/-! ## Theorems for the claims -/

theorem Inv_mono {s : SysState} {t t' : ℚ} (h : Inv s t) (htt : t ≤ t') :
    Inv s t' := by
  obtain ⟨h1, h2, h3⟩ := h
  refine ⟨h1, h2, fun t0 ht0 => ?_⟩
  obtain ⟨ha, hb, hc⟩ := h3 t0 ht0
  exact ⟨ha.trans htt, hb, fun x hx =>
    ⟨(hc x hx).1, (hc x hx).2.trans (by linarith)⟩⟩

theorem sorted_append_one {l : List ℚ} {y : ℚ}
    (h : List.Sorted (· ≤ ·) l) (hy : ∀ x ∈ l, x ≤ y) :
    List.Sorted (· ≤ ·) (l ++ [y]) :=
  List.pairwise_append.mpr
    ⟨h, List.pairwise_singleton _ _, by simpa using hy⟩

theorem collect_step_inv {s : SysState} {t t' : ℚ} (r : Option ℚ)
    (h : Inv s t) (htt : t ≤ t') :
    ∃ s', collect_step s r t' = .ok s' ∧ Inv s' t' := by
  cases r with
  | none => exact ⟨s, rfl, Inv_mono h htt⟩
  | some p =>
    obtain ⟨h1, h2, h3⟩ := h
    cases hz : s.zero_offset with
    | none =>
      have hst : s.start_time = none := by
        cases hst : s.start_time with
        | none => rfl
        | some u => rw [hz, hst] at h1; simp at h1
      have htd : s.time_data = [] := h2 hst
      refine ⟨{ s with zero_offset := some p, start_time := some t' },
              by simp [collect_step, hz], by simp, by simp, ?_⟩
      intro t0 ht0
      simp only [Option.some.injEq] at ht0
      subst ht0
      rw [htd]
      exact ⟨le_refl _, List.sorted_nil, by simp⟩
    | some z =>
      obtain ⟨t0, hst⟩ : ∃ u, s.start_time = some u := by
        rw [hz] at h1
        cases hstc : s.start_time with
        | none => rw [hstc] at h1; simp at h1
        | some u => exact ⟨u, rfl⟩
      obtain ⟨hta, htb, htc⟩ := h3 t0 hst
      refine ⟨{ s with
                pressure_data := s.pressure_data ++ [p - z],
                time_data := s.time_data ++ [t' - t0] },
              by simp [collect_step, hz, hst], ?_, by simp [hst], ?_⟩
      · simpa using h1
      · intro t1 ht1
        simp only [hst, Option.some.injEq] at ht1
        subst ht1
        refine ⟨hta.trans htt, ?_, ?_⟩
        · exact sorted_append_one htb fun x hx => by
            have := (htc x hx).2
            linarith
        · intro x hx
          rcases List.mem_append.mp hx with hx | hx
          · exact ⟨(htc x hx).1, by have := (htc x hx).2; linarith⟩
          · rw [List.mem_singleton.mp hx]
            constructor <;> linarith

theorem collect_run_inv :
    ∀ (events : List (Option ℚ × ℚ)) (s : SysState) (t : ℚ),
      Inv s t → (∀ e ∈ events, t ≤ e.2) →
      List.Pairwise (fun a b => a.2 ≤ b.2) events →
      ∃ s' t', collect_run s events = .ok s' ∧ Inv s' t' := by
  intro events
  induction events with
  | nil => exact fun s t h _ _ => ⟨s, t, rfl, h⟩
  | cons e rest ih =>
    intro s t h hlb hpw
    have hte : t ≤ e.2 := hlb e (List.mem_cons_self e rest)
    obtain ⟨s1, hstep, h1⟩ := collect_step_inv e.1 h hte
    rw [List.pairwise_cons] at hpw
    obtain ⟨s', t', hrun, h'⟩ := ih s1 e.2 h1 hpw.1 hpw.2
    refine ⟨s', t', ?_, h'⟩
    simp only [collect_run, hstep]
    exact hrun

theorem Inv_time_data {s : SysState} {t : ℚ} (h : Inv s t) :
    List.Sorted (· ≤ ·) s.time_data ∧ ∀ x ∈ s.time_data, 0 ≤ x := by
  obtain ⟨h1, h2, h3⟩ := h
  cases hst : s.start_time with
  | none => rw [h2 hst]; exact ⟨List.sorted_nil, by simp⟩
  | some t0 =>
    obtain ⟨_, hb, hc⟩ := h3 t0 hst
    exact ⟨hb, fun x hx => (hc x hx).1⟩

theorem collect_step_append {s s' : SysState} {r : Option ℚ} {t : ℚ}
    (h : collect_step s r t = .ok s') :
    (∃ u, s'.time_data = s.time_data ++ u) ∧
    ∃ v, s'.pressure_data = s.pressure_data ++ v := by
  cases r with
  | none =>
    simp only [collect_step] at h
    injection h with h
    subst h
    exact ⟨⟨[], by simp⟩, ⟨[], by simp⟩⟩
  | some p =>
    simp only [collect_step] at h
    cases hz : s.zero_offset with
    | none =>
      rw [hz] at h
      injection h with h
      subst h
      exact ⟨⟨[], by simp⟩, ⟨[], by simp⟩⟩
    | some z =>
      rw [hz] at h
      cases hst : s.start_time with
      | none =>
        rw [hst] at h
        exact Except.noConfusion h
      | some t0 =>
        rw [hst] at h
        injection h with h
        subst h
        exact ⟨⟨[t - t0], rfl⟩, ⟨[p - z], rfl⟩⟩

theorem collect_run_append :
    ∀ (events : List (Option ℚ × ℚ)) (s s' : SysState),
      collect_run s events = .ok s' →
      (∃ u, s'.time_data = s.time_data ++ u) ∧
      ∃ v, s'.pressure_data = s.pressure_data ++ v := by
  intro events
  induction events with
  | nil =>
    intro s s' h
    simp only [collect_run] at h
    injection h with h
    subst h
    exact ⟨⟨[], by simp⟩, ⟨[], by simp⟩⟩
  | cons e rest ih =>
    intro s s' h
    simp only [collect_run] at h
    cases hstep : collect_step s e.1 e.2 with
    | ok s1 =>
      rw [hstep] at h
      obtain ⟨⟨u1, hu1⟩, v1, hv1⟩ := collect_step_append hstep
      obtain ⟨⟨u2, hu2⟩, v2, hv2⟩ := ih s1 s' h
      exact ⟨⟨u1 ++ u2, by rw [hu2, hu1, List.append_assoc]⟩,
             ⟨v1 ++ v2, by rw [hv2, hv1, List.append_assoc]⟩⟩
    | error err =>
      rw [hstep] at h
      exact Except.noConfusion h

/-- C1 (amended): `start_data_collection` and `stop_data_collection`
perform no lifecycle check and never fail: `start` always succeeds and
resets the DataStore and ZeroOffset even when already running, and `stop`
always succeeds and merely signals termination even when idle, leaving
the data unchanged. -/
theorem c1_lifecycle_never_fails (s : SysState) :
    startCmd s = .ok { running := true, zero_offset := none,
                       start_time := none, pressure_data := [],
                       time_data := [] } ∧
    stopCmd s = .ok { s with running := false } :=
  ⟨rfl, rfl⟩

/-- C1 counterexample: calling stop in the Idle state does not fail with
`NotRunning` (it succeeds), and calling start in the Running state does
not fail with `AlreadyRunning` (it succeeds and resets the data),
refuting the claim as stated. -/
theorem c1_counterexample :
    stopCmd { running := false, zero_offset := none, start_time := none,
              pressure_data := [], time_data := [] } ≠
      Except.error CmdError.NotRunning ∧
    startCmd { running := true, zero_offset := some 1, start_time := some 0,
               pressure_data := [2], time_data := [1] } ≠
      Except.error CmdError.AlreadyRunning :=
  ⟨fun h => Except.noConfusion h, fun h => Except.noConfusion h⟩

/-- C2: a response buffer of fewer than 5 bytes fails to decode with
`ShortFrame`; a buffer of at least 5 bytes decodes to
`(buf[3] <<< 8) ||| buf[4]`, giving the measurement
`((buf[3] <<< 8) ||| buf[4]) / 100`, and the result depends only on bytes
3 and 4, not on bytes 0-2 or on anything beyond offset 4. -/
theorem c2_decode_response (buf : List Nat) :
    (buf.length < 5 → decode_response buf = .error .ShortFrame) ∧
    (5 ≤ buf.length →
      decode_response buf = .ok (((buf.getD 3 0) <<< 8) ||| buf.getD 4 0) ∧
      (read_pressure [some buf]).result =
        some (((((buf.getD 3 0) <<< 8) ||| buf.getD 4 0 : Nat) : ℚ) / 100)) ∧
    (∀ b0 b1 b2 b3 b4 : Nat, ∀ rest : List Nat,
      decode_response (b0 :: b1 :: b2 :: b3 :: b4 :: rest) =
        .ok ((b3 <<< 8) ||| b4)) := by
  refine ⟨fun h => by simp [decode_response, h],
          fun h => ?_, fun b0 b1 b2 b3 b4 rest => ?_⟩
  · have hn : ¬ buf.length < 5 := not_lt.mpr h
    exact ⟨by simp [decode_response, hn],
           by simp [read_pressure, attemptValue, decode_response, hn]⟩
  · have hn : ¬ (b0 :: b1 :: b2 :: b3 :: b4 :: rest).length < 5 := by
      simp
    simp [decode_response, hn]

/-- C2 witness: a 2-byte buffer fails with `ShortFrame`; the 7-byte
buffer `[1, 3, 2, 1, 44, 7, 9]` decodes to `(1 <<< 8) ||| 44 = 300`. -/
theorem c2_witness :
    (([1, 2] : List Nat).length < 5 ∧
      decode_response [1, 2] = .error .ShortFrame) ∧
    (5 ≤ ([1, 3, 2, 1, 44, 7, 9] : List Nat).length ∧
      decode_response [1, 3, 2, 1, 44, 7, 9] = .ok 300) := by
  constructor
  · exact ⟨by decide, (c2_decode_response [1, 2]).1 (by decide)⟩
  · refine ⟨by decide, ?_⟩
    rw [((c2_decode_response [1, 3, 2, 1, 44, 7, 9]).2.1 (by decide)).1]
    exact congrArg Except.ok (by decide)

/-- C3: with three attempts, if the first two fail (the attempt raises or
its buffer does not decode) and the third returns a decodable frame,
`read_pressure` returns the decoded measurement and logs exactly 2
failures; if all three attempts fail it returns `none` and logs exactly 3
failures.  The function is total over its `Option` result: every outcome
is `some` or `none`, modelling that the `except` clause absorbs every
exception instead of propagating it. -/
theorem c3_reader_retry (a1 a2 : Attempt)
    (h1 : attemptValue a1 = none) (h2 : attemptValue a2 = none)
    (buf : List Nat) (v : Nat) (hd : decode_response buf = .ok v) :
    ((read_pressure [a1, a2, some buf]).result = some ((v : ℚ) / 100) ∧
      (read_pressure [a1, a2, some buf]).failures = 2) ∧
    (∀ b1 b2 b3 : Attempt, attemptValue b1 = none → attemptValue b2 = none →
      attemptValue b3 = none →
      (read_pressure [b1, b2, b3]).result = none ∧
      (read_pressure [b1, b2, b3]).failures = 3) := by
  constructor
  · have hv : attemptValue (some buf) = some v := by simp [attemptValue, hd]
    constructor <;> simp [read_pressure, h1, h2, hv]
  · intro b1 b2 b3 hb1 hb2 hb3
    constructor <;> simp [read_pressure, hb1, hb2, hb3]

/-- C3 witness: a raising attempt and a short 2-byte frame both fail;
with those two failures followed by a valid frame, `read_pressure`
returns `300 / 100` with 2 failures; three failing attempts give `none`
with 3 failures. -/
theorem c3_witness :
    attemptValue none = none ∧ attemptValue (some [1, 2]) = none ∧
    ((read_pressure [none, some [1, 2], some [1, 3, 2, 1, 44, 7, 9]]).result =
        some (((300 : Nat) : ℚ) / 100) ∧
      (read_pressure [none, some [1, 2], some [1, 3, 2, 1, 44, 7, 9]]).failures = 2) ∧
    ((read_pressure [none, none, some [1, 2]]).result = none ∧
      (read_pressure [none, none, some [1, 2]]).failures = 3) := by
  refine ⟨rfl, rfl, ?_, ?_⟩
  · exact (c3_reader_retry none (some [1, 2]) rfl rfl
      [1, 3, 2, 1, 44, 7, 9] 300 rfl).1
  · exact (c3_reader_retry none (some [1, 2]) rfl rfl
      [1, 3, 2, 1, 44, 7, 9] 300 rfl).2 none none (some [1, 2]) rfl rfl rfl

/-- C4 (amended): the backoff `time.sleep(1)` sits in the `except` block
with no last-attempt guard, so it runs after every failed attempt
including the last: on a transport where all `n` attempts fail,
`read_pressure` sleeps exactly `n` times (not `n - 1`) and returns
`none`. -/
theorem c4_backoff_every_failure (attempts : List Attempt)
    (hall : ∀ a ∈ attempts, attemptValue a = none) :
    (read_pressure attempts).sleeps = attempts.length ∧
    (read_pressure attempts).result = none := by
  induction attempts with
  | nil => exact ⟨rfl, rfl⟩
  | cons a rest ih =>
    have ha : attemptValue a = none := hall a (List.mem_cons_self a rest)
    have ih2 := ih fun b hb => hall b (List.mem_cons_of_mem a hb)
    constructor <;> simp [read_pressure, ha, ih2.1, ih2.2]

/-- C4 counterexample: with `retries = 1` and a transport whose single
attempt fails, `read_pressure` sleeps once, not `1 - 1 = 0` times as the
claim requires, refuting the claim as stated. -/
theorem c4_counterexample :
    (read_pressure [(none : Attempt)]).sleeps = 1 ∧
    ¬ (read_pressure [(none : Attempt)]).sleeps = 1 - 1 := by
  decide

/-- C4 witness: two failing attempts produce exactly two backoff
sleeps. -/
theorem c4_witness :
    (∀ a ∈ ([none, none] : List Attempt), attemptValue a = none) ∧
    (read_pressure [none, none]).sleeps = 2 ∧
    (read_pressure [none, none]).result = none := by
  have h := c4_backoff_every_failure [none, none] (by decide)
  exact ⟨by decide, h.1, h.2⟩

/-- C5: after `start_data_collection`, a failed reading changes nothing;
the first successful reading stores the raw value as the zero offset and
the timestamp as the session start, appending no record; the second
successful reading appends exactly one record whose value is
`raw2 - raw1` (and whose elapsed time is measured from the zeroing
timestamp). -/
theorem c5_first_two_readings (s : SysState) (raw1 raw2 t0 t1 t2 : ℚ) :
    collect_step (start_data_collection s) none t0 =
      .ok (start_data_collection s) ∧
    collect_step (start_data_collection s) (some raw1) t1 =
      .ok { running := true, zero_offset := some raw1, start_time := some t1,
            pressure_data := [], time_data := [] } ∧
    collect_step { running := true, zero_offset := some raw1,
                   start_time := some t1, pressure_data := [],
                   time_data := [] } (some raw2) t2 =
      .ok { running := true, zero_offset := some raw1, start_time := some t1,
            pressure_data := [raw2 - raw1], time_data := [t2 - t1] } :=
  ⟨rfl, rfl, rfl⟩

/-- C6: `manual_zero` performs a fresh read under the standard retry
policy.  If the read succeeds with value `p`, the zero offset is
unconditionally overwritten with `p` while every previously appended
record and both data lists stay untouched, and a subsequent successful
sample is offset against the new value (`raw - p`); if the read fails,
the whole state is left unchanged. -/
theorem c6_manual_zero (s : SysState) (attempts : List Attempt) :
    (∀ p, (read_pressure attempts).result = some p →
      manual_zero s attempts = { s with zero_offset := some p }) ∧
    ((read_pressure attempts).result = none → manual_zero s attempts = s) ∧
    records (manual_zero s attempts) = records s ∧
    (manual_zero s attempts).pressure_data = s.pressure_data ∧
    (manual_zero s attempts).time_data = s.time_data ∧
    (∀ p t0 raw t,
      collect_step { s with zero_offset := some p, start_time := some t0 }
          (some raw) t =
        .ok { s with
              zero_offset := some p,
              start_time := some t0,
              pressure_data := s.pressure_data ++ [raw - p],
              time_data := s.time_data ++ [t - t0] }) := by
  refine ⟨fun p hp => by simp [manual_zero, hp],
          fun hn => by simp [manual_zero, hn], ?_, ?_, ?_,
          fun p t0 raw t => rfl⟩
  all_goals
    cases hr : (read_pressure attempts).result <;>
      simp [manual_zero, records, hr]

/-- C6 witness: a successful fresh read of `200 / 100` overwrites the
offset `1` and keeps the recorded data; a failing read leaves the state
unchanged. -/
theorem c6_witness :
    ((read_pressure [some [0, 0, 0, 0, 200]]).result =
        some (((200 : Nat) : ℚ) / 100) ∧
      manual_zero { running := true, zero_offset := some 1,
                    start_time := some 0, pressure_data := [5],
                    time_data := [3] } [some [0, 0, 0, 0, 200]] =
        { running := true, zero_offset := some (((200 : Nat) : ℚ) / 100),
          start_time := some 0, pressure_data := [5], time_data := [3] }) ∧
    ((read_pressure [none]).result = none ∧
      manual_zero { running := true, zero_offset := some 1,
                    start_time := some 0, pressure_data := [5],
                    time_data := [3] } [none] =
        { running := true, zero_offset := some 1, start_time := some 0,
          pressure_data := [5], time_data := [3] }) := by
  constructor
  · exact ⟨rfl,
      (c6_manual_zero
        { running := true, zero_offset := some 1, start_time := some 0,
          pressure_data := [5], time_data := [3] }
        [some [0, 0, 0, 0, 200]]).1 (((200 : Nat) : ℚ) / 100) rfl⟩
  · exact ⟨rfl,
      (c6_manual_zero
        { running := true, zero_offset := some 1, start_time := some 0,
          pressure_data := [5], time_data := [3] }
        [none]).2.1 rfl⟩

/-- C7: `stop_data_collection` leaves every SampleRecord, the data lists
and the zero offset untouched and only clears the running flag; the next
`start_data_collection` is what resets the DataStore and ZeroOffset, and
a session begun after stop measures its elapsed times from its own
zeroing timestamp (the first record of the new session carries
`t2 - t1`, restarting from 0). -/
theorem c7_stop_keeps_data_start_resets (s : SysState) (raw1 raw2 t1 t2 : ℚ) :
    records (stop_data_collection s) = records s ∧
    (stop_data_collection s).pressure_data = s.pressure_data ∧
    (stop_data_collection s).time_data = s.time_data ∧
    (stop_data_collection s).zero_offset = s.zero_offset ∧
    (stop_data_collection s).running = false ∧
    start_data_collection (stop_data_collection s) =
      { running := true, zero_offset := none, start_time := none,
        pressure_data := [], time_data := [] } ∧
    collect_run (start_data_collection (stop_data_collection s))
        [(some raw1, t1), (some raw2, t2)] =
      .ok { running := true, zero_offset := some raw1, start_time := some t1,
            pressure_data := [raw2 - raw1], time_data := [t2 - t1] } :=
  ⟨rfl, rfl, rfl, rfl, rfl, rfl, rfl⟩

/-- C8: starting a session and running the sampling loop over iterations
whose timestamps are non-decreasing never crashes, every recorded
elapsed time is non-negative, the `time_data` sequence is monotonically
non-decreasing, and any loop run only ever extends the data lists by a
suffix (no record is removed or modified in place). -/
theorem c8_elapsed_monotone (s0 : SysState) (events : List (Option ℚ × ℚ))
    (hmono : List.Pairwise (fun a b => a.2 ≤ b.2) events) :
    (∃ s', collect_run (start_data_collection s0) events = .ok s' ∧
      List.Sorted (· ≤ ·) s'.time_data ∧ ∀ x ∈ s'.time_data, 0 ≤ x) ∧
    (∀ s s', collect_run s events = .ok s' →
      (∃ u, s'.time_data = s.time_data ++ u) ∧
      ∃ v, s'.pressure_data = s.pressure_data ++ v) := by
  refine ⟨?_, fun s s' h => collect_run_append events s s' h⟩
  have hfresh : ∀ t : ℚ, Inv (start_data_collection s0) t := by
    intro t
    refine ⟨by simp [start_data_collection], fun _ => rfl, fun t0 h0 => ?_⟩
    simp [start_data_collection] at h0
  cases events with
  | nil =>
    exact ⟨start_data_collection s0, rfl, List.sorted_nil,
           by simp [start_data_collection]⟩
  | cons e rest =>
    have hpc := List.pairwise_cons.mp hmono
    have hlb : ∀ x ∈ e :: rest, e.2 ≤ x.2 := by
      intro x hx
      rcases List.mem_cons.mp hx with h | h
      · subst h; exact le_refl _
      · exact hpc.1 x h
    obtain ⟨s', t', hrun, h'⟩ :=
      collect_run_inv (e :: rest) (start_data_collection s0) e.2
        (hfresh e.2) hlb hmono
    obtain ⟨hs, hn⟩ := Inv_time_data h'
    exact ⟨s', hrun, hs, hn⟩

/-- C8 witness: a session of three iterations at times 0, 1, 2 whose
middle read fails yields a sorted, non-negative `time_data`. -/
theorem c8_witness :
    List.Pairwise (fun a b => a.2 ≤ b.2)
      ([(some 5, 0), (none, 1), (some 7, 2)] : List (Option ℚ × ℚ)) ∧
    ∃ s', collect_run (start_data_collection
        { running := false, zero_offset := none, start_time := none,
          pressure_data := [], time_data := [] })
        [(some 5, 0), (none, 1), (some 7, 2)] = .ok s' ∧
      List.Sorted (· ≤ ·) s'.time_data ∧ ∀ x ∈ s'.time_data, 0 ≤ x := by
  have h := c8_elapsed_monotone
    { running := false, zero_offset := none, start_time := none,
      pressure_data := [], time_data := [] }
    [(some 5, 0), (none, 1), (some 7, 2)] (by decide)
  exact ⟨by decide, h.1⟩

/-- C9: provided the two parallel lists have equal length, every core
operation (start, stop, manual zero, one iteration of the loop body)
preserves that equality; the loop body either leaves both lists
untouched or appends exactly one element to each, extending the record
sequence `zip time_data pressure_data` by exactly the new
`(elapsed, value)` pair. -/
theorem c9_parallel_lists (s : SysState)
    (h : s.pressure_data.length = s.time_data.length) :
    (start_data_collection s).pressure_data.length =
      (start_data_collection s).time_data.length ∧
    (stop_data_collection s).pressure_data.length =
      (stop_data_collection s).time_data.length ∧
    (∀ attempts, (manual_zero s attempts).pressure_data.length =
      (manual_zero s attempts).time_data.length) ∧
    (∀ r t s', collect_step s r t = .ok s' →
      s'.pressure_data.length = s'.time_data.length ∧
      ((s'.pressure_data = s.pressure_data ∧ s'.time_data = s.time_data) ∨
        ∃ v e, s'.pressure_data = s.pressure_data ++ [v] ∧
          s'.time_data = s.time_data ++ [e] ∧
          records s' = records s ++ [(e, v)])) := by
  refine ⟨rfl, h, ?_, ?_⟩
  · intro attempts
    cases hr : (read_pressure attempts).result with
    | none => simpa [manual_zero, hr] using h
    | some p => simpa [manual_zero, hr] using h
  · intro r t s' hstep
    cases r with
    | none =>
      simp only [collect_step] at hstep
      injection hstep with he
      subst he
      exact ⟨h, Or.inl ⟨rfl, rfl⟩⟩
    | some p =>
      simp only [collect_step] at hstep
      cases hz : s.zero_offset with
      | none =>
        rw [hz] at hstep
        injection hstep with he
        subst he
        exact ⟨h, Or.inl ⟨rfl, rfl⟩⟩
      | some z =>
        rw [hz] at hstep
        cases hst : s.start_time with
        | none =>
          rw [hst] at hstep
          exact Except.noConfusion hstep
        | some t0 =>
          rw [hst] at hstep
          injection hstep with he
          subst he
          refine ⟨by simp [h], Or.inr ⟨p - z, t - t0, rfl, rfl, ?_⟩⟩
          simp only [records]
          rw [List.zip_append h.symm]
          rfl

/-- C9 witness: a state with one record; a successful loop iteration
appends one element to each list and one pair to the record sequence. -/
theorem c9_witness :
    (([2] : List ℚ).length = ([1] : List ℚ).length) ∧
    (([2, 4 - 1] : List ℚ).length = ([1, 5 - 0] : List ℚ).length ∧
      ((([2, 4 - 1] : List ℚ) = [2] ∧ ([1, 5 - 0] : List ℚ) = [1]) ∨
        ∃ v e, ([2, 4 - 1] : List ℚ) = [2] ++ [v] ∧
          ([1, 5 - 0] : List ℚ) = [1] ++ [e] ∧
          records { running := true, zero_offset := some 1,
                    start_time := some 0, pressure_data := [2, 4 - 1],
                    time_data := [1, 5 - 0] } =
            records { running := true, zero_offset := some 1,
                      start_time := some 0, pressure_data := [2],
                      time_data := [1] } ++ [(e, v)])) := by
  refine ⟨by decide, ?_⟩
  exact (c9_parallel_lists
      { running := true, zero_offset := some 1, start_time := some 0,
        pressure_data := [2], time_data := [1] } (by decide)).2.2.2
    (some 4) 5
    { running := true, zero_offset := some 1, start_time := some 0,
      pressure_data := [2, 4 - 1], time_data := [1, 5 - 0] } rfl

end LoadCell
